import Mathlib

/-!
Verification development for the PolyBench/Python measurement harness
(file src/benchmarks/polybench.py and the launcher src/run-benchmark.py).

The Python source is shallowly embedded: every definition below translates
one Python function (or the relevant fragment of one) into a total,
executable Lean function.  Python machine behaviour is modelled as follows:
Python ints are Int (arbitrary precision, as in Python), Python floats that
only ever hold exactly representable values are modelled as rationals,
raised exceptions are Except.error values, and printed output or performed
side effects are reified as explicit event lists or result lists.
-/

namespace PolybenchPython

/-! ## Python value model

Used for the dynamically typed entry points (PolyBench.create_array), whose
validation behaviour depends on the runtime types of the arguments. -/

/-- A Python runtime value, restricted to the types that can reach
PolyBench.create_array: integers, floats, complex numbers, lists, and a
catch-all constructor for values of any other type. -/
inductive PyVal where
  | int (n : Int)
  | float (q : ℚ)
  | complex (re im : ℚ)
  | list (xs : List PyVal)
  | other (description : String)

/-- Result of isinstance(x, int) for the modelled values. -/
def isPyInt : PyVal → Bool
  | .int _ => true
  | _ => false

/-- Result of isinstance(x, (int, float, complex)) for the modelled values. -/
def isPyNumber : PyVal → Bool
  | .int _ => true
  | .float _ => true
  | .complex _ _ => true
  | _ => false

/-- Result of isinstance(x, list) for the modelled values. -/
def isPyList : PyVal → Bool
  | .list _ => true
  | _ => false

/-- The exceptions raised by the embedded fragments of polybench.py. -/
inductive PyErr where
  | assertionError (msg : String)
  | notImplementedError (msg : String)
  | indexError (msg : String)
  | typeError (msg : String)
deriving DecidableEq, Repr

/-- The benchmark data type self.DATA_TYPE: PolyBench.__init__ (polybench.py
lines 100-107) forces it to the Python type int or float, raising for
anything else. -/
inductive DataType where
  | int
  | float
deriving DecidableEq, Repr

/-- Arrays produced by PolyBench.create_array: nested Python lists of scalar
values, possibly wrapped into an ndarray by a final numpy.array conversion
(constructor numpy; the element conversion the library performs is modelled
by numpyArrayConvert below). -/
inductive PyArr where
  | scalar (v : PyVal)
  | arr (xs : List PyArr)
  | numpy (a : PyArr)

/-- The enumeration benchmarks.polybench_classes.ArrayImplementation. -/
inductive ArrayImplementation where
  | LIST
  | LIST_FLATTENED
  | NUMPY
deriving DecidableEq, Repr

/-- Truncation toward zero, as Python int(float) and the NumPy cast of a
float to the int dtype behave. -/
def ratTruncate (q : ℚ) : Int :=
  q.num / (q.den : Int)

/-- Element conversion performed by numpy.array(list_array, DATA_TYPE) on
one scalar of the nested list.  The benchmark data types are the real types
int and float; NumPy converts int and float values between them, and raises
TypeError when asked to convert a complex value to either real dtype. -/
def numpyConvertScalar (dataType : DataType) : PyVal → Except PyErr PyVal
  | .int n =>
      match dataType with
      | .int => .ok (.int n)
      | .float => .ok (.float (n : ℚ))
  | .float q =>
      match dataType with
      | .int => .ok (.int (ratTruncate q))
      | .float => .ok (.float q)
  | .complex _ _ =>
      match dataType with
      | .int => .error (.typeError "cannot convert complex to int")
      | .float => .error (.typeError "cannot convert complex to float")
  | _ => .error (.typeError "unsupported scalar value")

mutual

/-- Embedding of the numpy.array(list_array, DATA_TYPE) call of the NUMPY
branch of create_array: convert every scalar of the nested list to the
benchmark data type, propagating the TypeError a failing element conversion
raises. -/
def numpyArrayConvert (dataType : DataType) : PyArr → Except PyErr PyArr
  | .scalar v =>
      match numpyConvertScalar dataType v with
      | .ok w => .ok (.scalar w)
      | .error e => .error e
  | .arr xs =>
      match numpyArrayConvertList dataType xs with
      | .ok ys => .ok (.arr ys)
      | .error e => .error e
  | .numpy a =>
      match numpyArrayConvert dataType a with
      | .ok b => .ok (.numpy b)
      | .error e => .error e

/-- Conversion of one nesting level: the elements in order, stopping at the
first conversion error. -/
def numpyArrayConvertList (dataType : DataType) :
    List PyArr → Except PyErr (List PyArr)
  | [] => .ok []
  | x :: xs =>
      match numpyArrayConvert dataType x with
      | .error e => .error e
      | .ok y =>
        match numpyArrayConvertList dataType xs with
        | .error e => .error e
        | .ok ys => .ok (y :: ys)

end

/-! ## PolyBench.create_array (polybench.py lines 211-314) -/

/-- Embedding of PolyBench.__create_array_rec.  The Python code recurses on
the number of dimensions; sizes is the (already validated and padded) list
of dimension sizes.  The Python function is only ever called with
dimensions at least 1 and a non-empty sizes list; the value returned for
dimensions = 0 is irrelevant (in Python that call would never return). -/
def create_array_rec : Nat → List Int → PyVal → PyArr
  | 0, _, _ => .arr []
  | 1, sizes, initializationValue =>
      .arr (List.replicate (sizes.headD 0).toNat (.scalar initializationValue))
  | d + 2, sizes, initializationValue =>
      if sizes.length == 1 then
        .arr (List.replicate (sizes.headD 0).toNat
          (create_array_rec (d + 1) sizes initializationValue))
      else
        .arr (List.replicate (sizes.headD 0).toNat
          (create_array_rec (d + 1) sizes.tail initializationValue))

/-- Extract the Int payloads of a list of Python values, keeping the ones
that are ints (used after the all-ints validation has passed, where it is
the identity on payloads). -/
def pyIntPayloads (xs : List PyVal) : List Int :=
  xs.filterMap fun v => match v with
    | .int n => some n
    | _ => none

/-- Embedding of PolyBench.create_array.  The argument paddingFactor is the
POLYBENCH_PADDING_FACTOR option, implementation the
POLYBENCH_ARRAY_IMPLEMENTATION option and dataType the benchmark data type
self.DATA_TYPE (int or float, forced in PolyBench.__init__); dimensions,
sizes and initializationValue are the dynamically typed Python arguments.
The validation checks are performed in source order; the Python while loop
that extends new_sizes up to the dimension count appends sizes[-1], the
last requested (unpadded) size; the NUMPY branch runs the created nested
list through the numpy.array element conversion, which raises TypeError
for a complex initialization value. -/
def create_array (paddingFactor : Nat) (implementation : ArrayImplementation)
    (dataType : DataType) (dimensions sizes initializationValue : PyVal) :
    Except PyErr PyArr :=
  match dimensions with
  | .int d =>
    match sizes with
    | .list szs =>
      if !isPyNumber initializationValue then
        .error (.assertionError "Invalid type for parameter initialization_value")
      else if d < 1 then
        .error (.assertionError "Invalid value for parameter dimensions")
      else if szs.isEmpty then
        .error (.assertionError "Invalid value for parameter sizes: empty")
      else if !(szs.all isPyInt) then
        .error (.assertionError "Invalid value for parameter sizes: not ints")
      else
        let ints := pyIntPayloads szs
        if !(ints.all fun n => 1 ≤ n) then
          .error (.assertionError "Invalid value for parameter sizes: not positive")
        else
          let paddedSizes := ints.map fun size => size + (paddingFactor : Int)
          let newSizes := paddedSizes ++
            List.replicate (d.toNat - paddedSizes.length) (ints.getLastD 0)
          match implementation with
          | .LIST => .ok (create_array_rec d.toNat newSizes initializationValue)
          | .LIST_FLATTENED =>
              .ok (create_array_rec 1 [newSizes.foldl (· * ·) 1] initializationValue)
          | .NUMPY =>
              match numpyArrayConvert dataType
                  (create_array_rec d.toNat newSizes initializationValue) with
              | .ok converted => .ok (.numpy converted)
              | .error e => .error e
    | _ => .error (.assertionError "Invalid type for parameter sizes")
  | _ => .error (.assertionError "Invalid type for parameter dimensions")

/-- Whether an embedded computation raised an exception. -/
def raisesError {α : Type} (r : Except PyErr α) : Bool :=
  match r with
  | .error _ => true
  | .ok _ => false

/-- The shape of a created array: the length of each nesting level,
following the first element at every level (all levels produced by
create_array_rec are uniform). -/
def arrShape : PyArr → List Nat
  | .scalar _ => []
  | .numpy a => arrShape a
  | .arr [] => [0]
  | .arr (x :: xs) => (x :: xs).length :: arrShape x

/-! ## PolyBench.__flush_cache (polybench.py lines 529-536) -/

/-- Embedding of PolyBench.__flush_cache.  The Python code computes
cs = int(cache_size_kb * 1024 / 8) (exact, since the product is divisible
by 8), allocates a list of cs float zeros, sums the list and asserts that
the sum is at most 10.0.  The returned value is the accumulated sum; a
failed assert would surface as an AssertionError. -/
def flush_cache (cacheSizeKb : Nat) : Except PyErr ℚ :=
  let cs : Nat := cacheSizeKb * 1024 / 8
  let flush : List ℚ := List.replicate cs 0
  let tmp : ℚ := flush.foldl (· + ·) 0
  if tmp ≤ 10 then .ok tmp else .error (.assertionError "tmp <= 10.0")

/-! ## Counter list file parsing (polybench.py lines 462-483) -/

/-- Whitespace test matching Python str.strip with no arguments (the
whitespace characters that can plausibly occur in a counter list file). -/
def isPySpace (c : Char) : Bool :=
  c == ' ' || c == '\t' || c == '\n' || c == '\r' || c == '\x0b' || c == '\x0c'

/-- Embedding of Python str.strip(): remove leading and trailing
whitespace. -/
def pyStrip (s : String) : String :=
  String.mk (((s.data.dropWhile isPySpace).reverse.dropWhile isPySpace).reverse)

/-- Embedding of Python line.strip of quote and comma, as used to store plain
counter names: remove leading and trailing double-quote and comma
characters. -/
def pyStripQuotesCommas (s : String) : String :=
  let isQC : Char → Bool := fun c => c == '"' || c == ','
  String.mk (((s.data.dropWhile isQC).reverse.dropWhile isQC).reverse)

/-- Embedding of Python s.startswith(pre). -/
def pyStartsWith (s pre : String) : Bool :=
  pre.data.isPrefixOf s.data

/-- Embedding of Python s.endswith(suf). -/
def pyEndsWith (s suf : String) : Bool :=
  suf.data.isSuffixOf s.data

/-- Helper for pySplit: split the remaining characters at every separator,
carrying the characters of the current field in reverse. -/
def pySplitAux (sep : Char) : List Char → List Char → List String
  | [], acc => [String.mk acc.reverse]
  | c :: cs, acc =>
      if c == sep then String.mk acc.reverse :: pySplitAux sep cs []
      else pySplitAux sep cs (c :: acc)

/-- Embedding of Python s.split(sep) for a one-character separator (the
launcher splits on a comma and on an equals sign). -/
def pySplit (s : String) (sep : Char) : List String :=
  pySplitAux sep s.data []

/-- The loop body of parse_counters_file: walks the stripped lines carrying
the is_in_comment flag.  Outside a comment, a line starting with the block
comment opener sets the flag (the same line is never tested for the closer),
a line starting with a double slash is skipped, and any other line, stripped
of quotes and commas, is appended to the result.  Inside a comment, a line
ending with the block comment closer clears the flag; no in-comment line is
appended. -/
def parse_counters_lines : Bool → List String → List String
  | _, [] => []
  | false, line :: rest =>
      if pyStartsWith line "/*" then parse_counters_lines true rest
      else if pyStartsWith line "//" then parse_counters_lines false rest
      else pyStripQuotesCommas line :: parse_counters_lines false rest
  | true, line :: rest =>
      if pyEndsWith line "*/" then parse_counters_lines false rest
      else parse_counters_lines true rest

/-- Embedding of parse_counters_file.  The file contents are given as the
list of its lines (contents.splitlines()); each line is stripped of
surrounding whitespace before the comment-handling loop runs. -/
def parse_counters_file (rawLines : List String) : List String :=
  parse_counters_lines false (rawLines.map pyStrip)

/-! ## PolyBench.__papi_init (polybench.py lines 441-501) -/

/-- Resolve one requested counter name against the available-counter list
(name, identifier pairs from the papi_events module): the identifier of the
first entry with a matching name, if any.  This is the inner for loop of
__papi_init with its break. -/
def resolveCounter (available : List (String × Int)) (usrCounter : String) :
    Option Int :=
  (available.find? fun avlbl => avlbl.1 == usrCounter).map (·.2)

/-- Embedding of the validation phase of PolyBench.__papi_init, after the
available counters have been queried and the counter file parsed: raises
NotImplementedError when fewer than one user counter was supplied, and
otherwise returns the list of resolved counter identifiers (in request
order) together with the list of names for which a warning is printed (the
unresolvable ones, in request order). -/
def papi_init_core (available : List (String × Int)) (userCounters : List String) :
    Except PyErr (List Int × List String) :=
  if userCounters.length < 1 then
    .error (.notImplementedError
      "Must supply at least one counter name in file papi_counters.list")
  else
    .ok (userCounters.filterMap (resolveCounter available),
         userCounters.filter fun u => (resolveCounter available u).isNone)

/-- Embedding of PolyBench.__papi_init: parse the counter list file, then
validate and resolve the requested names. -/
def papi_init (available : List (String × Int)) (fileLines : List String) :
    Except PyErr (List Int × List String) :=
  papi_init_core available (parse_counters_file fileLines)

/-! ## PolyBench.__papi_print (polybench.py lines 503-527) -/

/-- Embedding of the inner papi_counter_names of __papi_print: translate the
resolved counter identifiers back into names by scanning the
available-counter list for the first entry with a matching identifier
(identifiers with no available entry contribute nothing). -/
def papi_counter_names (available : List (String × Int)) (counters : List Int) :
    List String :=
  counters.filterMap fun c =>
    (available.find? fun avlbl => avlbl.2 == c).map (·.1)

/-- Python dict assignment d[k] = v on an insertion-ordered association
list: overwrite in place when the key is present, append otherwise. -/
def dictInsert (m : List (String × Int)) (k : String) (v : Int) :
    List (String × Int) :=
  if m.any fun p => p.1 == k then
    m.map fun p => if p.1 == k then (k, v) else p
  else m ++ [(k, v)]

/-- Embedding of PolyBench.__papi_print: iterate i over the indices of the
resolved counter list, pairing counter_names[i] with the i-th accumulated
counter result in the polybench_result dict.  Out-of-range indexing (which
in Python would raise IndexError) is reified as an error. -/
def papi_print (available : List (String × Int)) (counters results : List Int) :
    Except PyErr (List (String × Int)) :=
  let counterNames := papi_counter_names available counters
  (List.range counters.length).foldlM
    (fun m i =>
      match counterNames[i]?, results[i]? with
      | some name, some value => .ok (dictInsert m name value)
      | _, _ => .error (.indexError "list index out of range"))
    []

/-! ## PolyBench.time_kernel and the instrument sequencing
(polybench.py lines 383-426 and 529-550) -/

/-- The option flags consulted by time_kernel and its helpers (a projection
of benchmarks.polybench_classes.PolyBenchOptions). -/
structure PolyBenchOptions where
  POLYBENCH_TIME : Bool
  POLYBENCH_GFLOPS : Bool
  POLYBENCH_PAPI : Bool
  POLYBENCH_NO_FLUSH_CACHE : Bool
  POLYBENCH_CYCLE_ACCURATE_TIMER : Bool
  POLYBENCH_LINUX_FIFO_SCHEDULER : Bool
deriving DecidableEq, Repr

/-- The observable actions performed during time_kernel, in program order:
cache flush, the two sched_setscheduler calls, timestamp reads, PAPI
counter starts and stops (each carrying the list of counter identifiers it
is called with), and kernel invocations. -/
inductive Event where
  | flushCache
  | setFifoScheduler
  | setStandardScheduler
  | timerStart
  | timerStop
  | papiStartCounters (ids : List Int)
  | runKernel
  | papiStopCounters (ids : List Int)
deriving DecidableEq, Repr

/-- Embedding of PolyBench.__prepare_instruments: flush the cache unless
disabled, then switch to the FIFO scheduler when requested. -/
def prepare_instruments (o : PolyBenchOptions) : List Event :=
  (if !o.POLYBENCH_NO_FLUSH_CACHE then [Event.flushCache] else []) ++
  (if o.POLYBENCH_LINUX_FIFO_SCHEDULER then [Event.setFifoScheduler] else [])

/-- The per-counter measurement loop of the PAPI branch of time_kernel:
for each resolved counter, papi_high.start_counters is called with the
one-element list of that counter, the kernel runs, and the stopped counter
value (modelled by the function measure) is appended to the accumulated
results.  When the kernel raises, the exception propagates out of the loop:
the trace stops after the failing kernel invocation and no further counter
is processed.  Returns the events, whether an exception propagated, and the
accumulated counter results. -/
def papi_measure_loop (measure : Int → Int) (kernelRaises : Bool) :
    List Int → List Event × Bool × List Int
  | [] => ([], false, [])
  | counter :: rest =>
      if kernelRaises then
        ([Event.papiStartCounters [counter], Event.runKernel], true, [])
      else
        let res := papi_measure_loop measure kernelRaises rest
        (Event.papiStartCounters [counter] :: Event.runKernel ::
           Event.papiStopCounters [counter] :: res.1,
         res.2.1, measure counter :: res.2.2)

/-- Embedding of PolyBench.time_kernel as a trace transformer.  The resolved
PAPI counter identifiers (the output of __papi_init) are passed in;
kernelRaises states whether the benchmark kernel raises when invoked.  In
the timer branch, __timer_start runs __prepare_instruments and records a
timestamp, the kernel runs, and __timer_stop records the second timestamp;
in the PAPI branch, __prepare_instruments runs and then the per-counter
loop.  The final switch back to the standard scheduler (source lines
404-405) is reached only when no exception propagated, because the source
has no try/finally around the kernel invocation.  Returns the event trace,
whether an exception propagated out of time_kernel, and the accumulated
PAPI results. -/
def time_kernel (o : PolyBenchOptions) (papiCounters : List Int)
    (measure : Int → Int) (kernelRaises : Bool) :
    List Event × Bool × List Int :=
  if o.POLYBENCH_TIME || o.POLYBENCH_GFLOPS then
    let pre := prepare_instruments o ++ [Event.timerStart]
    if kernelRaises then
      (pre ++ [Event.runKernel], true, [])
    else
      (pre ++ [Event.runKernel, Event.timerStop] ++
         (if o.POLYBENCH_LINUX_FIFO_SCHEDULER then [Event.setStandardScheduler]
          else []),
       false, [])
  else if o.POLYBENCH_PAPI then
    let res := papi_measure_loop measure kernelRaises papiCounters
    let body := prepare_instruments o ++ res.1
    if res.2.1 then (body, true, res.2.2)
    else
      (body ++
         (if o.POLYBENCH_LINUX_FIFO_SCHEDULER then [Event.setStandardScheduler]
          else []),
       false, res.2.2)
  else
    ((if o.POLYBENCH_LINUX_FIFO_SCHEDULER then [Event.setStandardScheduler]
      else []),
     false, [])

/-- The OS scheduling class left active after a trace: true means the FIFO
class is active.  The process starts in the standard class; each
sched_setscheduler event overwrites the class. -/
def fifoActiveAfter (trace : List Event) : Bool :=
  trace.foldl
    (fun fifo e =>
      match e with
      | Event.setFifoScheduler => true
      | Event.setStandardScheduler => false
      | _ => fifo)
    false

/-- A value stored in the polybench_options dictionary: the defaults hold
booleans, integers, one output-stream handle and one dataset-size
enumeration value; option processing can overwrite any entry with True or
with an integer. -/
inductive OptVal where
  | bool (b : Bool)
  | int (n : Int)
  | handle
  | datasetSize
deriving DecidableEq, Repr

/-- The polybench_default_options dictionary of
benchmarks/polybench_options.py, as an insertion-ordered association
list. -/
def polybench_default_options : List (String × OptVal) :=
  [("POLYBENCH_TIME", .bool false),
   ("POLYBENCH_DUMP_ARRAYS", .bool false),
   ("POLYBENCH_PADDING_FACTOR", .int 0),
   ("POLYBENCH_PAPI", .bool false),
   ("POLYBENCH_CACHE_SIZE_KB", .int 32770),
   ("POLYBENCH_NO_FLUSH_CACHE", .bool false),
   ("POLYBENCH_CYCLE_ACCURATE_TIMER", .bool false),
   ("POLYBENCH_LINUX_FIFO_SCHEDULER", .bool false),
   ("POLYBENCH_DUMP_TARGET", .handle),
   ("POLYBENCH_GFLOPS", .bool false),
   ("POLYBENCH_PAPI_VERBOSE", .bool false),
   ("POLYBENCH_DATASET_SIZE", .datasetSize),
   ("POLYBENCH_FLATTEN_LISTS", .bool false)]

/-- Python dict assignment for the options dictionary: overwrite in place
when the key is present, append otherwise. -/
def dictSetOpt (m : List (String × OptVal)) (k : String) (v : OptVal) :
    List (String × OptVal) :=
  if m.any fun p => p.1 == k then
    m.map fun p => if p.1 == k then (k, v) else p
  else m ++ [(k, v)]

/-- Embedding of Python str.isnumeric restricted to ASCII digit strings (the
only numeric strings the launcher is given). -/
def pyIsNumeric (s : String) : Bool :=
  !s.isEmpty && s.data.all Char.isDigit

/-- One iteration of the option-processing loop of parse_command_line: a
token that is an existing dictionary key is set to True; otherwise a token
of the form KEY=VALUE with a numeric VALUE stores the integer value under
KEY; any other token is ignored. -/
def process_option (opts : List (String × OptVal)) (token : String) :
    List (String × OptVal) :=
  if opts.any fun p => p.1 == token then
    dictSetOpt opts token (.bool true)
  else
    match pySplit token '=' with
    | [k, v] =>
        if pyIsNumeric v then dictSetOpt opts k (.int ((v.toNat?).getD 0))
        else opts
    | _ => opts

/-- Embedding of the polybench-options processing of parse_command_line
(run-benchmark.py lines 205-227): start from a copy of the defaults and
fold the comma-separated option tokens through process_option.  This
fragment of the source contains no raise statement: it always returns a
dictionary. -/
def parse_polybench_options (optionsArg : String) : List (String × OptVal) :=
  (pySplit optionsArg ',').foldl process_option polybench_default_options

/-- Truthiness of a dictionary entry, as tested by the
if self.POLYBENCH_TIME style conditions of time_kernel: a missing key reads
as false (never happens for the keys time_kernel reads), False and the
integer 0 are falsy, everything else is truthy. -/
def optTruthy (opts : List (String × OptVal)) (key : String) : Bool :=
  match ((opts.find? fun p => p.1 == key).map Prod.snd : Option OptVal) with
  | some (.bool b) => b
  | some (.int n) => n != 0
  | some _ => true
  | none => false

/-- Project the options dictionary onto the flags consulted by
time_kernel, mirroring how PolyBench.__init__ copies the dictionary entries
onto instance attributes. -/
def toPolyBenchOptions (opts : List (String × OptVal)) : PolyBenchOptions :=
  { POLYBENCH_TIME := optTruthy opts "POLYBENCH_TIME"
    POLYBENCH_GFLOPS := optTruthy opts "POLYBENCH_GFLOPS"
    POLYBENCH_PAPI := optTruthy opts "POLYBENCH_PAPI"
    POLYBENCH_NO_FLUSH_CACHE := optTruthy opts "POLYBENCH_NO_FLUSH_CACHE"
    POLYBENCH_CYCLE_ACCURATE_TIMER := optTruthy opts "POLYBENCH_CYCLE_ACCURATE_TIMER"
    POLYBENCH_LINUX_FIFO_SCHEDULER := optTruthy opts "POLYBENCH_LINUX_FIFO_SCHEDULER" }

/-! ## Gemm print_array_custom (gemm.py lines 98-103) -/

/-- One printed token of a formatted array dump: a line break or the value
of the array cell at row i, column j. -/
inductive PrintTok where
  | newline
  | value (i j : Nat)
deriving DecidableEq, Repr

/-- Embedding of _StrategyList.print_array_custom of gemm.py: loop i over
the NI rows and j over the NJ columns of the result matrix C; a line break
is printed before the cell value whenever (i * NI + j) mod 20 = 0. -/
def gemm_print_array_custom (NI NJ : Nat) : List PrintTok :=
  (List.range NI).flatMap fun i =>
    (List.range NJ).flatMap fun j =>
      (if (i * NI + j) % 20 == 0 then [PrintTok.newline] else []) ++
      [PrintTok.value i j]

/-- The cells of an NI by NJ matrix in row-major print order. -/
def row_major_cells (NI NJ : Nat) : List (Nat × Nat) :=
  (List.range NI).flatMap fun i => (List.range NJ).map fun j => (i, j)

/-- The upstream line-wrap convention as worded by the spec: print the given
cells in order, emitting a line break before every 20th printed value
(that is, before a cell exactly when the number of values already printed
is divisible by 20).  The first argument counts the values printed so
far. -/
def wrap_every_20 : Nat → List (Nat × Nat) → List PrintTok
  | _, [] => []
  | printed, (i, j) :: rest =>
      (if printed % 20 == 0 then [PrintTok.newline] else []) ++
      PrintTok.value i j :: wrap_every_20 (printed + 1) rest

/-! ## Specification-side definitions

These definitions restate behaviour in the words of the specification or of
an amended claim; they are compared with the source embeddings above. -/

/-- The counter list parser as a single left fold carrying the pair
(inside-block-comment flag, names collected so far).  This is the amended
reading of the parser contract: a whitespace-stripped line starting with
the block-comment opener always enters comment state, even when the same
line also ends with the closer; comment state ends after a line ending with
the closer; lines starting with a double slash are skipped; every other
line, including an empty line, contributes its quote-and-comma-stripped
content (an empty line contributes the empty string). -/
def parse_counters_spec (rawLines : List String) : List String :=
  ((rawLines.map pyStrip).foldl
    (fun st line =>
      if st.1 then
        (if pyEndsWith line "*/" then (false, st.2) else (true, st.2))
      else if pyStartsWith line "/*" then (true, st.2)
      else if pyStartsWith line "//" then (st.1, st.2)
      else (st.1, st.2 ++ [pyStripQuotesCommas line]))
    (false, [])).2

/-- Build a Python dict (insertion-ordered association list) from a list of
key-value pairs by repeated dict assignment. -/
def buildDict (init : List (String × Int)) (l : List (String × Int)) :
    List (String × Int) :=
  l.foldl (fun m p => dictInsert m p.1 p.2) init

/-- The key sequence of a produced result mapping (empty when the printing
loop raised). -/
def papiResultKeys (r : Except PyErr (List (String × Int))) : List String :=
  match r with
  | .ok m => m.map Prod.fst
  | .error _ => []

/-- First-occurrence deduplication of a key sequence: the insertion-ordered
key sequence of a Python dict built by assigning the given keys in order
(each key appears once, at the position of its first occurrence). -/
def pyDictKeysDedup : List String → List String
  | [] => []
  | k :: ks => k :: pyDictKeysDedup (ks.filter fun x => !(x == k))
termination_by l => l.length
decreasing_by
  exact Nat.lt_succ_of_le (List.length_filter_le _ ks)

/-! ## Helper lemmas -/

/-- Summing a list of float zeros starting from any accumulator returns the
accumulator. -/
theorem foldl_add_replicate_zero (n : Nat) :
    ∀ acc : ℚ, (List.replicate n (0 : ℚ)).foldl (· + ·) acc = acc := by
  induction n with
  | zero => intro acc; rfl
  | succ m ih => intro acc; simp only [List.replicate_succ, List.foldl_cons, add_zero]; exact ih acc

/-! ## Claim C4: cache flush -/

/-- Claim C4: for every integer cache size of at least 1 KB, the cache
flush allocates the list of cacheSizeKb * 1024 / 8 double zeros, sums every
element, and terminates normally: the sanity assertion tmp at most 10.0
holds because the accumulated sum is exactly 0, so flush_cache returns
normally (with sum 0) and never raises. -/
theorem flush_cache_never_raises (cacheSizeKb : Nat) (h : 1 ≤ cacheSizeKb) :
    flush_cache cacheSizeKb = .ok 0 := by
  simp only [flush_cache, foldl_add_replicate_zero]
  norm_num

/-- Witness for C4 at the default cache size option value. -/
theorem flush_cache_never_raises_witness : flush_cache 32770 = .ok 0 :=
  flush_cache_never_raises 32770 (by norm_num)

/-! ## Claim C7: array padding -/

/-- Claim C7 (failing-input evaluation): with padding factor 2, requesting
2 dimensions with the sizes list [10] creates an array of shape [12, 10]:
the second dimension, filled in from the last element of the sizes list, is
allocated with the unpadded size 10 rather than 12, so not every dimension
receives the padding.  With the full sizes list [10, 10] both dimensions
are padded to 12, as in the end-to-end scenario of the spec. -/
theorem create_array_fill_in_dimension_not_padded :
    (create_array 2 .LIST .float (.int 2) (.list [PyVal.int 10])
        (.int 0)).map arrShape
      = .ok [12, 10] ∧
    (create_array 2 .LIST .float (.int 2) (.list [PyVal.int 10, PyVal.int 10])
        (.int 0)).map arrShape
      = .ok [12, 12] ∧
    ([12, 10] : List Nat) ≠ [12, 12] :=
  ⟨rfl, rfl, by decide⟩

/-! ## Claim C2: zero resolvable counters -/

/-- Claim C2 (counterexample): a counter list file with one line naming an
event that resolves against none of the available counters makes
__papi_init complete normally with an empty active counter set (and one
warning); no fatal configuration error is raised. -/
theorem papi_init_zero_resolvable_completes :
    papi_init [("PAPI_TOT_CYC", 10)] ["NOT_A_REAL_EVENT"]
      = .ok ([], ["NOT_A_REAL_EVENT"]) ∧
    raisesError (papi_init [("PAPI_TOT_CYC", 10)] ["NOT_A_REAL_EVENT"]) = false :=
  ⟨rfl, rfl⟩

/-- Claim C2 (amended): __papi_init raises its fatal error only when the
parsed counter list is empty; for every available-counter list and every
non-empty requested list in which no name resolves, it completes normally
with an empty active counter set and one warning per requested name. -/
theorem papi_init_core_all_unresolvable (available : List (String × Int))
    (userCounters : List String) (h1 : userCounters ≠ [])
    (h2 : ∀ u ∈ userCounters, resolveCounter available u = none) :
    papi_init_core available userCounters = .ok ([], userCounters) := by
  have hlen : ¬ userCounters.length < 1 := by
    cases userCounters with
    | nil => exact absurd rfl h1
    | cons a l => simp
  unfold papi_init_core
  rw [if_neg hlen]
  have hfm : userCounters.filterMap (resolveCounter available) = [] := by
    simp only [List.filterMap_eq_nil_iff]
    exact h2
  have hf : (userCounters.filter fun u => (resolveCounter available u).isNone)
      = userCounters := by
    rw [List.filter_eq_self]
    intro u hu
    rw [h2 u hu]
    rfl
  rw [hfm, hf]

/-- Witness for the amended C2 at a concrete unresolvable request. -/
theorem papi_init_core_all_unresolvable_witness :
    papi_init_core [("PAPI_TOT_CYC", 10)] ["GARBAGE_EVENT"]
      = .ok ([], ["GARBAGE_EVENT"]) :=
  papi_init_core_all_unresolvable _ _ (by decide) (by decide)

/-! ## Claim C9: counter list file parsing -/

/-- Claim C9 (counterexample): a block comment that opens and closes on the
same line leaves the parser in comment state, so the following event name
line is swallowed: the parser returns the empty list instead of the one
event name appearing outside comments. -/
theorem parse_counters_file_one_line_comment_swallows :
    parse_counters_file ["/* counters */", "PAPI_TOT_CYC"] = [] ∧
    ([] : List String) ≠ ["PAPI_TOT_CYC"] :=
  ⟨by decide, by decide⟩

/-- The recursive comment-handling loop of parse_counters_file agrees with
the single left fold of parse_counters_spec from any starting state. -/
theorem parse_counters_lines_eq_foldl (lines : List String) :
    ∀ (flag : Bool) (acc : List String),
      acc ++ parse_counters_lines flag lines =
        (lines.foldl
          (fun st line =>
            if st.1 then
              (if pyEndsWith line "*/" then (false, st.2) else (true, st.2))
            else if pyStartsWith line "/*" then (true, st.2)
            else if pyStartsWith line "//" then (st.1, st.2)
            else (st.1, st.2 ++ [pyStripQuotesCommas line]))
          (flag, acc)).2 := by
  induction lines with
  | nil => intro flag acc; simp [parse_counters_lines]
  | cons line rest ih =>
    intro flag acc
    cases flag with
    | false =>
      by_cases h1 : pyStartsWith line "/*" = true
      · simp only [parse_counters_lines, h1, if_true, List.foldl_cons]
        exact ih true acc
      · by_cases h2 : pyStartsWith line "//" = true
        · simp only [parse_counters_lines, h1, h2, List.foldl_cons, if_true, if_false,
            Bool.false_eq_true]
          exact ih false acc
        · simp only [parse_counters_lines, h1, h2, List.foldl_cons, if_false,
            Bool.false_eq_true]
          rw [← ih false (acc ++ [pyStripQuotesCommas line])]
          simp
    | true =>
      by_cases h1 : pyEndsWith line "*/" = true
      · simp only [parse_counters_lines, h1, if_true, List.foldl_cons]
        exact ih false acc
      · simp only [parse_counters_lines, h1, List.foldl_cons, if_false,
          Bool.false_eq_true]
        exact ih true acc

/-- Claim C9 (amended): for every counter list file, the parser returns the
entries described by parse_counters_spec: a line opening a block comment
always enters comment state (even when the comment also closes on that
line) and the state persists until a line ending with the closer; lines
starting with a double slash are skipped; every other line, including an
empty one, contributes its content stripped of surrounding quotes and
commas (an empty line contributes an empty string). -/
theorem parse_counters_file_eq_spec (rawLines : List String) :
    parse_counters_file rawLines = parse_counters_spec rawLines := by
  unfold parse_counters_file parse_counters_spec
  have := parse_counters_lines_eq_foldl (rawLines.map pyStrip) false []
  simpa using this

/-! ## Claim C1: scheduler restore on exceptional exit -/

/-- Claim C1 (counterexample): with POLYBENCH_TIME and the FIFO scheduler
option enabled, an execution of time_kernel in which the kernel raises
propagates the exception after the switch to FIFO but before the switch
back to the standard scheduler: the FIFO scheduling state is left active.
The trace is flush, FIFO switch, timer start, failing kernel run, and
nothing after it. -/
theorem time_kernel_exception_leaves_fifo_active :
    (time_kernel ⟨true, false, false, false, false, true⟩ [] (fun _ => 0) true)
      = ([Event.flushCache, Event.setFifoScheduler, Event.timerStart,
          Event.runKernel], true, []) ∧
    fifoActiveAfter
      (time_kernel ⟨true, false, false, false, false, true⟩ [] (fun _ => 0) true).1
      = true :=
  ⟨rfl, rfl⟩

/-- In the per-counter PAPI loop, no exception propagates when the kernel
does not raise. -/
theorem papi_measure_loop_no_raise (measure : Int → Int) :
    ∀ counters : List Int, (papi_measure_loop measure false counters).2.1 = false := by
  intro counters
  induction counters with
  | nil => rfl
  | cons c rest ih => simpa [papi_measure_loop] using ih

/-- Appending a switch to the standard scheduler leaves the standard class
active. -/
theorem fifoActiveAfter_append_standard (trace : List Event) :
    fifoActiveAfter (trace ++ [Event.setStandardScheduler]) = false := by
  simp [fifoActiveAfter, List.foldl_append]

/-- Claim C1 (amended): when the FIFO scheduler option is enabled and the
kernel body does not raise, every execution of time_kernel switches back to
the standard scheduler before returning (its trace ends with the restore,
so the FIFO state is not left active); the guarantee holds only for
non-exceptional exits, because the source has no scoped-release pattern
around the kernel invocation. -/
theorem time_kernel_restores_scheduler_without_exception
    (o : PolyBenchOptions) (papiCounters : List Int) (measure : Int → Int)
    (hfifo : o.POLYBENCH_LINUX_FIFO_SCHEDULER = true) :
    (time_kernel o papiCounters measure false).2.1 = false ∧
    fifoActiveAfter (time_kernel o papiCounters measure false).1 = false := by
  unfold time_kernel
  by_cases h1 : (o.POLYBENCH_TIME || o.POLYBENCH_GFLOPS) = true
  · simp only [h1, if_true, hfifo]
    constructor
    · rfl
    · simp [fifoActiveAfter, List.foldl_append]
  · by_cases h2 : o.POLYBENCH_PAPI = true
    · simp only [h1, h2, if_true, if_false, Bool.false_eq_true,
        papi_measure_loop_no_raise, hfifo]
      constructor
      · trivial
      · exact fifoActiveAfter_append_standard _
    · simp only [h1, h2, if_false, Bool.false_eq_true, hfifo]
      constructor
      · trivial
      · rfl

/-- Witness for the amended C1 in PAPI mode with one resolved counter. -/
theorem time_kernel_restores_scheduler_without_exception_witness :
    (time_kernel ⟨false, false, true, false, false, true⟩ [3] (fun c => c) false).2.1
      = false ∧
    fifoActiveAfter
      (time_kernel ⟨false, false, true, false, false, true⟩ [3] (fun c => c) false).1
      = false :=
  time_kernel_restores_scheduler_without_exception
    ⟨false, false, true, false, false, true⟩ [3] (fun c => c) rfl

/-! ## Claim C3: conflicting measurement modes -/

/-- Claim C3 (counterexample): the launcher option string enabling both
POLYBENCH_TIME and POLYBENCH_PAPI passes option processing with both flags
set to True (option parsing has no rejection path for this combination),
and running time_kernel under the resulting configuration silently prefers
the wall-clock timer mode: the trace is the plain timer-branch trace and
contains no PAPI counter event even though a resolved counter is
available. -/
theorem conflicting_measurement_modes_not_rejected :
    optTruthy (parse_polybench_options "POLYBENCH_TIME,POLYBENCH_PAPI")
      "POLYBENCH_TIME" = true ∧
    optTruthy (parse_polybench_options "POLYBENCH_TIME,POLYBENCH_PAPI")
      "POLYBENCH_PAPI" = true ∧
    time_kernel
        (toPolyBenchOptions (parse_polybench_options "POLYBENCH_TIME,POLYBENCH_PAPI"))
        [5] (fun _ => 7) false
      = ([Event.flushCache, Event.timerStart, Event.runKernel, Event.timerStop],
         false, []) :=
  ⟨by decide, by decide, rfl⟩

/-- Claim C3 (amended): a configuration enabling both POLYBENCH_TIME and
POLYBENCH_PAPI is accepted by option processing (both flags end up True)
and is resolved at runtime, not at configuration validation: time_kernel
under such a configuration behaves exactly as it would with POLYBENCH_PAPI
disabled, silently preferring the timer mode. -/
theorem conflicting_modes_prefer_timer
    (o : PolyBenchOptions) (papiCounters : List Int) (measure : Int → Int)
    (kernelRaises : Bool) (htime : o.POLYBENCH_TIME = true)
    (hpapi : o.POLYBENCH_PAPI = true) :
    optTruthy (parse_polybench_options "POLYBENCH_TIME,POLYBENCH_PAPI")
      "POLYBENCH_TIME" = true ∧
    optTruthy (parse_polybench_options "POLYBENCH_TIME,POLYBENCH_PAPI")
      "POLYBENCH_PAPI" = true ∧
    time_kernel o papiCounters measure kernelRaises =
      time_kernel { o with POLYBENCH_PAPI := false } papiCounters measure
        kernelRaises := by
  refine ⟨by decide, by decide, ?_⟩
  simp [time_kernel, prepare_instruments, htime]

/-- Witness for the amended C3 at a concrete configuration with both
measurement modes enabled. -/
theorem conflicting_modes_prefer_timer_witness :
    optTruthy (parse_polybench_options "POLYBENCH_TIME,POLYBENCH_PAPI")
      "POLYBENCH_TIME" = true ∧
    optTruthy (parse_polybench_options "POLYBENCH_TIME,POLYBENCH_PAPI")
      "POLYBENCH_PAPI" = true ∧
    time_kernel ⟨true, false, true, false, false, false⟩ [5] (fun _ => 7) false =
      time_kernel ⟨true, false, false, false, false, false⟩ [5] (fun _ => 7) false :=
  conflicting_modes_prefer_timer ⟨true, false, true, false, false, false⟩ [5]
    (fun _ => 7) false rfl rfl

/-! ## Claim C8: formatted dump line wrapping -/

/-- Claim C8 (counterexample): for the non-square shape NI = 2, NJ = 21 the
printed token stream of the gemm formatted dump differs from the
wrap-every-20-values convention: the break-test index i * NI + j drifts
away from the number of values already printed (i * NJ + j) as soon as a
row boundary is crossed. -/
theorem gemm_print_wrap_counterexample :
    gemm_print_array_custom 2 21 ≠ wrap_every_20 0 (row_major_cells 2 21) := by
  decide

/-- Splitting the printed cells splits the wrapped token stream, with the
counter advanced by the number of values in the first part. -/
theorem wrap_every_20_append (l1 : List (Nat × Nat)) :
    ∀ (k : Nat) (l2 : List (Nat × Nat)),
      wrap_every_20 k (l1 ++ l2) =
        wrap_every_20 k l1 ++ wrap_every_20 (k + l1.length) l2 := by
  induction l1 with
  | nil => intro k l2; simp [wrap_every_20]
  | cons p rest ih =>
    intro k l2
    obtain ⟨i, j⟩ := p
    simp only [List.cons_append, wrap_every_20, List.length_cons, List.append_eq]
    rw [ih (k + 1) l2,
      show k + (rest.length + 1) = k + 1 + rest.length from by omega]
    simp [List.append_assoc]

/-- Wrapping one full row of cells starting at printed-value count k. -/
theorem wrap_every_20_row (i : Nat) (m : Nat) :
    ∀ k : Nat,
      wrap_every_20 k ((List.range m).map fun j => (i, j)) =
        (List.range m).flatMap fun j =>
          (if (k + j) % 20 == 0 then [PrintTok.newline] else []) ++
          [PrintTok.value i j] := by
  induction m with
  | zero => intro k; simp [wrap_every_20]
  | succ n ih =>
    intro k
    rw [List.range_succ, List.map_append, wrap_every_20_append, ih k]
    simp [wrap_every_20]

/-- Claim C8 (amended): the gemm formatted dump emits a line break before
the cell (i, j) exactly when i * NI + j is divisible by 20 (the same
formula as the upstream PolyBench/C reference print_array for gemm); the
printed stream coincides with the wrap-every-20-values convention whenever
NI and NJ are congruent modulo 20 - in particular for every square result
shape - because the break test then agrees at every cell with the count of
values already printed; it does not coincide for all shapes, as the
counterexample at NI = 2, NJ = 21 shows. -/
theorem gemm_print_wrap_mod20 (NI NJ : Nat) (h : NI % 20 = NJ % 20) :
    gemm_print_array_custom NI NJ = wrap_every_20 0 (row_major_cells NI NJ) := by
  unfold gemm_print_array_custom row_major_cells
  suffices hM : ∀ M : Nat,
      ((List.range M).flatMap fun i =>
        (List.range NJ).flatMap fun j =>
          (if (i * NI + j) % 20 == 0 then [PrintTok.newline] else []) ++
          [PrintTok.value i j]) =
      wrap_every_20 0 ((List.range M).flatMap fun i =>
        (List.range NJ).map fun j => (i, j)) by
    exact hM NI
  intro M
  induction M with
  | zero => simp [wrap_every_20]
  | succ n ih =>
    rw [List.range_succ, List.flatMap_append, List.flatMap_append,
      wrap_every_20_append, ← ih]
    have hlen : ((List.range n).flatMap fun i =>
        (List.range NJ).map fun j => (i, j)).length = n * NJ := by
      simp [List.length_flatMap, Function.comp_def, List.map_const', mul_comm]
    rw [hlen]
    congr 1
    simp only [List.flatMap_singleton, List.flatMap_cons, List.flatMap_nil,
      List.append_nil]
    rw [wrap_every_20_row n NJ (0 + n * NJ)]
    congr 1
    funext j
    have hmod : (n * NI + j) % 20 = (0 + n * NJ + j) % 20 := by
      rw [Nat.zero_add, Nat.add_mod (n * NI) j, Nat.add_mod (n * NJ) j,
        Nat.mul_mod n NI, Nat.mul_mod n NJ, h]
    rw [hmod]

/-- Witness for the amended C8 at the non-square shape NI = 1, NJ = 21,
whose dimensions are congruent modulo 20. -/
theorem gemm_print_wrap_mod20_witness :
    gemm_print_array_custom 1 21 = wrap_every_20 0 (row_major_cells 1 21) :=
  gemm_print_wrap_mod20 1 21 (by decide)

/-! ## Claim C10: create_array input validation -/

/-- With pairwise distinct counter identifiers, the reverse lookup by
identifier finds exactly the available entry that the pair belongs to. -/
theorem find_by_snd_of_mem (available : List (String × Int))
    (hids : (available.map Prod.snd).Nodup) (u : String) (c : Int)
    (hmem : (u, c) ∈ available) :
    available.find? (fun avlbl => avlbl.2 == c) = some (u, c) := by
  induction available with
  | nil => cases hmem
  | cons a rest ih =>
    rw [List.map_cons, List.nodup_cons] at hids
    by_cases hc : (a.2 == c) = true
    · have hc2 : a.2 = c := by simpa using hc
      rcases List.mem_cons.mp hmem with heq | htail
      · rw [List.find?_cons, hc, ← heq]
      · exfalso
        apply hids.1
        rw [hc2]
        exact List.mem_map.mpr ⟨(u, c), htail, rfl⟩
    · rcases List.mem_cons.mp hmem with heq | htail
      · exfalso
        apply hc
        rw [← heq]
        simp
      · rw [List.find?_cons]
        simp only [hc]
        exact ih hids.2 htail

/-- A successful forward resolution of a requested name yields a pair that
is an entry of the available-counter list. -/
theorem resolve_mem (available : List (String × Int)) (u : String) (c : Int)
    (h : resolveCounter available u = some c) : (u, c) ∈ available := by
  unfold resolveCounter at h
  cases hf : available.find? (fun avlbl => avlbl.1 == u) with
  | none => rw [hf] at h; cases h
  | some a =>
    rw [hf] at h
    have ha1 : a.1 = u := by simpa using List.find?_some hf
    have ha2 : a.2 = c := by simpa using h
    have : a = (u, c) := by
      cases a
      simp_all
    rw [← this]
    exact List.mem_of_find?_eq_some hf

/-- With pairwise distinct counter identifiers, translating the resolved
identifiers back to names returns exactly the requested names that
resolved, in request order. -/
theorem papi_counter_names_resolved (available : List (String × Int))
    (hids : (available.map Prod.snd).Nodup) (user : List String) :
    papi_counter_names available (user.filterMap (resolveCounter available)) =
      user.filter fun u => (resolveCounter available u).isSome := by
  induction user with
  | nil => rfl
  | cons u rest ih =>
    cases h : resolveCounter available u with
    | none =>
      rw [List.filterMap_cons, h, List.filter_cons]
      simp only [h, Option.isSome_none, Bool.false_eq_true, if_false]
      exact ih
    | some c =>
      rw [List.filterMap_cons, h, List.filter_cons]
      simp only [h, Option.isSome_some, if_true]
      unfold papi_counter_names
      rw [List.filterMap_cons]
      have hfind := find_by_snd_of_mem available hids u c (resolve_mem available u c h)
      rw [hfind]
      simp only [Option.map_some']
      unfold papi_counter_names at ih
      rw [ih]

/-- The number of successfully resolved identifiers equals the number of
requested names that resolve. -/
theorem filterMap_length_eq_filter_isSome {α β : Type} (f : α → Option β)
    (l : List α) :
    (l.filterMap f).length = (l.filter fun a => (f a).isSome).length := by
  induction l with
  | nil => rfl
  | cons a rest ih =>
    rw [List.filterMap_cons, List.filter_cons]
    cases h : f a <;> simp [h, ih]

/-- Overwriting a present key in a dict leaves the key sequence
unchanged. -/
theorem keys_map_overwrite (m : List (String × Int)) (k : String) (v : Int) :
    (m.map fun p => if p.1 == k then (k, v) else p).map Prod.fst =
      m.map Prod.fst := by
  rw [List.map_map]
  apply List.map_congr_left
  intro p _
  by_cases h : (p.1 == k) = true
  · have : p.1 = k := by simpa using h
    simp [Function.comp, h, this]
  · simp [Function.comp, h]

/-- The key sequence of a dict after assignment: unchanged when the key was
present, extended by the key otherwise. -/
theorem dictInsert_keys (m : List (String × Int)) (k : String) (v : Int) :
    (dictInsert m k v).map Prod.fst =
      if m.any (fun p => p.1 == k) then m.map Prod.fst
      else m.map Prod.fst ++ [k] := by
  unfold dictInsert
  by_cases h : m.any (fun p => p.1 == k) = true
  · rw [if_pos h, if_pos h]
    exact keys_map_overwrite m k v
  · rw [if_neg h, if_neg h]
    simp

/-- Membership in the key sequence after a dict assignment. -/
theorem dictInsert_keys_mem_iff (m : List (String × Int)) (k : String)
    (v : Int) (x : String) :
    x ∈ (dictInsert m k v).map Prod.fst ↔ (x ∈ m.map Prod.fst ∨ x = k) := by
  rw [dictInsert_keys]
  by_cases h : m.any (fun p => p.1 == k) = true
  · rw [if_pos h]
    constructor
    · exact Or.inl
    · rintro (hx | rfl)
      · exact hx
      · rcases List.any_eq_true.mp h with ⟨p, hp, hpk⟩
        have : p.1 = x := by simpa using hpk
        exact List.mem_map.mpr ⟨p, hp, this⟩
  · rw [if_neg h]
    simp

/-- Dict assignment preserves distinctness of the keys. -/
theorem dictInsert_keys_nodup (m : List (String × Int)) (k : String) (v : Int)
    (h : (m.map Prod.fst).Nodup) : ((dictInsert m k v).map Prod.fst).Nodup := by
  rw [dictInsert_keys]
  by_cases hany : m.any (fun p => p.1 == k) = true
  · rw [if_pos hany]; exact h
  · rw [if_neg hany]
    rw [List.nodup_append]
    refine ⟨h, List.nodup_singleton k, ?_⟩
    intro x hx hk
    have hxk : x = k := by simpa using hk
    apply hany
    rcases List.mem_map.mp hx with ⟨p, hp, hpx⟩
    exact List.any_eq_true.mpr ⟨p, hp, by simp [hpx, hxk]⟩

/-- Assigning a key that is absent from the dict appends the pair. -/
theorem dictInsert_fresh (m : List (String × Int)) (k : String) (v : Int)
    (h : k ∉ m.map Prod.fst) : dictInsert m k v = m ++ [(k, v)] := by
  unfold dictInsert
  rw [if_neg]
  intro hany
  rcases List.any_eq_true.mp hany with ⟨p, hp, hpk⟩
  exact h (List.mem_map.mpr ⟨p, hp, by simpa using hpk⟩)

/-- Membership in the keys of a dict built by repeated assignment. -/
theorem buildDict_keys_mem (l : List (String × Int)) :
    ∀ (init : List (String × Int)) (x : String),
      x ∈ (buildDict init l).map Prod.fst ↔
        (x ∈ init.map Prod.fst ∨ x ∈ l.map Prod.fst) := by
  induction l with
  | nil => intro init x; simp [buildDict]
  | cons p rest ih =>
    intro init x
    have hstep : buildDict init (p :: rest) =
        buildDict (dictInsert init p.1 p.2) rest := rfl
    rw [hstep, ih, dictInsert_keys_mem_iff]
    simp only [List.map_cons, List.mem_cons]
    tauto

/-- Building a dict by repeated assignment keeps the keys distinct. -/
theorem buildDict_keys_nodup (l : List (String × Int)) :
    ∀ init : List (String × Int), (init.map Prod.fst).Nodup →
      ((buildDict init l).map Prod.fst).Nodup := by
  induction l with
  | nil => intro init h; exact h
  | cons p rest ih =>
    intro init h
    exact ih (dictInsert init p.1 p.2) (dictInsert_keys_nodup init p.1 p.2 h)

/-- Bridge between the Boolean key-containment test and membership. -/
theorem contains_iff_mem_keys (A : List String) (x : String) :
    A.contains x = true ↔ x ∈ A :=
  List.elem_iff

/-- The key sequence of a dict built by repeated assignment: the keys
already present, followed by the first occurrence of each new key in
assignment order. -/
theorem buildDict_keys_dedup (l : List (String × Int)) :
    ∀ init : List (String × Int),
      (buildDict init l).map Prod.fst =
        init.map Prod.fst ++
          pyDictKeysDedup ((l.map Prod.fst).filter fun x =>
            !((init.map Prod.fst).contains x)) := by
  induction l with
  | nil => intro init; simp [buildDict, pyDictKeysDedup]
  | cons p rest ih =>
    intro init
    obtain ⟨k, v⟩ := p
    have hstep : buildDict init ((k, v) :: rest) =
        buildDict (dictInsert init k v) rest := rfl
    rw [hstep, ih]
    by_cases hk : k ∈ init.map Prod.fst
    · have hany : init.any (fun q => q.1 == k) = true := by
        rcases List.mem_map.mp hk with ⟨q, hq, hqk⟩
        exact List.any_eq_true.mpr ⟨q, hq, by simp [hqk]⟩
      have hkeys : (dictInsert init k v).map Prod.fst = init.map Prod.fst := by
        unfold dictInsert
        rw [if_pos hany]
        exact keys_map_overwrite init k v
      rw [hkeys]
      congr 2
      rw [List.map_cons, List.filter_cons]
      have hck : ((init.map Prod.fst).contains k) = true :=
        (contains_iff_mem_keys _ _).mpr hk
      rw [hck]
      simp only [Bool.not_true, Bool.false_eq_true, if_false]
    · have hkeys : (dictInsert init k v).map Prod.fst =
          init.map Prod.fst ++ [k] := by
        rw [dictInsert_fresh init k v hk]
        simp
      rw [hkeys]
      have hck : ((init.map Prod.fst).contains k) = false := by
        rw [← Bool.not_eq_true]
        intro hc
        exact hk ((contains_iff_mem_keys _ _).mp hc)
      rw [List.map_cons, List.filter_cons, hck]
      simp only [Bool.not_false, if_true]
      rw [pyDictKeysDedup, List.append_assoc, List.singleton_append]
      congr 2
      rw [List.filter_filter]
      congr 1
      apply List.filter_congr
      intro x _
      cases hxk : x == k <;> cases hA : (init.map Prod.fst).contains x <;>
        simp_all [List.contains, List.elem_iff, List.mem_append]

/-- First-occurrence deduplication preserves membership. -/
theorem pyDictKeysDedup_mem (l : List String) (x : String) :
    x ∈ pyDictKeysDedup l ↔ x ∈ l := by
  induction l using pyDictKeysDedup.induct with
  | case1 => simp [pyDictKeysDedup]
  | case2 k ks ih =>
    rw [pyDictKeysDedup]
    by_cases hx : x = k
    · subst hx; simp
    · simp only [List.mem_cons, ih, List.mem_filter]
      constructor
      · rintro (rfl | ⟨hmem, _⟩)
        · exact Or.inl rfl
        · exact Or.inr hmem
      · rintro (rfl | hmem)
        · exact Or.inl rfl
        · exact Or.inr ⟨hmem, by simp [hx]⟩

/-- First-occurrence deduplication yields pairwise distinct keys. -/
theorem pyDictKeysDedup_nodup (l : List String) :
    (pyDictKeysDedup l).Nodup := by
  induction l using pyDictKeysDedup.induct with
  | case1 => simp [pyDictKeysDedup]
  | case2 k ks ih =>
    rw [pyDictKeysDedup]
    refine List.nodup_cons.mpr ⟨?_, ih⟩
    intro hk
    have := (pyDictKeysDedup_mem _ _).mp hk
    rw [List.mem_filter] at this
    simp at this

/-- Folding over successors shifts the index argument. -/
theorem foldlM_map_succ (l : List Nat)
    (g : List (String × Int) → Nat → Except PyErr (List (String × Int))) :
    ∀ init, (l.map Nat.succ).foldlM g init =
      l.foldlM (fun m i => g m (i + 1)) init := by
  induction l with
  | nil => intro init; rfl
  | cons a rest ih =>
    intro init
    rw [List.map_cons, List.foldlM_cons, List.foldlM_cons]
    exact bind_congr fun b => ih b

/-- Binding a successful Except value applies the continuation. -/
theorem except_ok_bind {α β : Type} (x : α) (g : α → Except PyErr β) :
    (Except.ok x >>= g) = g x := rfl

/-- The index-based result-pairing loop of __papi_print, run over name and
result lists of the loop-bound length, is the dict built from the zipped
pairs. -/
theorem papi_print_loop_eq_buildDict (n : Nat) :
    ∀ (names : List String) (vals : List Int) (init : List (String × Int)),
      names.length = n → vals.length = n →
      ((List.range n).foldlM (fun m i =>
          match names[i]?, vals[i]? with
          | some name, some value => Except.ok (dictInsert m name value)
          | _, _ => (Except.error (PyErr.indexError "list index out of range") :
              Except PyErr (List (String × Int)))) init)
        = Except.ok (buildDict init (names.zip vals)) := by
  induction n with
  | zero =>
    intro names vals init hn hv
    rw [List.length_eq_zero] at hn hv
    subst hn; subst hv
    rfl
  | succ k ih =>
    intro names vals init hn hv
    cases names with
    | nil => cases hn
    | cons name ns =>
      cases vals with
      | nil => cases hv
      | cons v vs =>
        rw [List.range_succ_eq_map, List.foldlM_cons]
        simp only [List.getElem?_cons_zero]
        rw [except_ok_bind, foldlM_map_succ]
        simp only [List.getElem?_cons_succ]
        rw [List.zip_cons_cons]
        have hb : buildDict init ((name, v) :: ns.zip vs) =
            buildDict (dictInsert init name v) (ns.zip vs) := rfl
        rw [hb]
        exact ih ns vs (dictInsert init name v) (by simpa using hn) (by simpa using hv)

/-- Embedded __papi_print with name and result lists matching the counter
list in length never hits the out-of-range case: it returns the dict built
from the zipped name-result pairs. -/
theorem papi_print_eq_buildDict (available : List (String × Int))
    (counters results : List Int)
    (hn : (papi_counter_names available counters).length = counters.length)
    (hr : results.length = counters.length) :
    papi_print available counters results =
      Except.ok (buildDict []
        ((papi_counter_names available counters).zip results)) := by
  unfold papi_print
  exact papi_print_loop_eq_buildDict counters.length _ _ _ hn hr

/-- Claim C5: for every available-counter list with pairwise distinct
identifiers and every requested counter list containing at least one
resolvable and at least one unresolvable name, __papi_init succeeds,
returning the resolved identifiers of exactly the resolvable request
entries in order (the unresolvable names are dropped from the active set)
and printing one warning per unresolvable request entry in order; and for
any accumulated result list of matching length, __papi_print produces its
mapping without raising, and the key sequence of that mapping is the
first-occurrence deduplication of the resolvable requested names: exactly
one entry per resolvable name, no entry for any unresolvable name. -/
theorem papi_init_partial_resolution (available : List (String × Int))
    (user : List String) (results : List Int)
    (hids : (available.map Prod.snd).Nodup)
    (hsome : ∃ u ∈ user, (resolveCounter available u).isSome = true)
    (hnone : ∃ u ∈ user, (resolveCounter available u).isNone = true)
    (hlen : results.length = (user.filterMap (resolveCounter available)).length) :
    papi_init_core available user =
      .ok (user.filterMap (resolveCounter available),
           user.filter fun u => (resolveCounter available u).isNone) ∧
    raisesError (papi_print available
        (user.filterMap (resolveCounter available)) results) = false ∧
    papiResultKeys (papi_print available
        (user.filterMap (resolveCounter available)) results)
      = pyDictKeysDedup (user.filter fun u =>
          (resolveCounter available u).isSome) ∧
    (pyDictKeysDedup (user.filter fun u =>
      (resolveCounter available u).isSome)).Nodup := by
  obtain ⟨u0, hu0mem, _⟩ := hsome
  have husr_ne : ¬ user.length < 1 := by
    cases user with
    | nil => cases hu0mem
    | cons a l => simp
  have hnames_list :
      papi_counter_names available (user.filterMap (resolveCounter available))
        = user.filter fun u => (resolveCounter available u).isSome :=
    papi_counter_names_resolved available hids user
  have hlen_names :
      (user.filter fun u => (resolveCounter available u).isSome).length
        = (user.filterMap (resolveCounter available)).length :=
    (filterMap_length_eq_filter_isSome _ _).symm
  have hp := papi_print_eq_buildDict available
    (user.filterMap (resolveCounter available)) results
    (by rw [hnames_list]; exact hlen_names) hlen
  rw [hnames_list] at hp
  have hkeys : ((user.filter fun u =>
        (resolveCounter available u).isSome).zip results).map Prod.fst
      = user.filter fun u => (resolveCounter available u).isSome :=
    List.map_fst_zip _ _ (le_of_eq (by rw [hlen_names, hlen]))
  refine ⟨?_, ?_, ?_, pyDictKeysDedup_nodup _⟩
  · unfold papi_init_core
    rw [if_neg husr_ne]
  · rw [hp]
    rfl
  · rw [hp]
    show (buildDict [] ((user.filter fun u =>
        (resolveCounter available u).isSome).zip results)).map Prod.fst = _
    rw [buildDict_keys_dedup, hkeys]
    simp [List.filter_true]

/-- Witness for C5: a requested list with a duplicated resolvable name and
one unresolvable name; the reported key sequence keeps one entry for the
resolvable name. -/
theorem papi_init_partial_resolution_witness :
    papi_init_core [("PAPI_TOT_CYC", 10)]
        ["PAPI_TOT_CYC", "NO_SUCH_EVENT", "PAPI_TOT_CYC"] =
      .ok (["PAPI_TOT_CYC", "NO_SUCH_EVENT", "PAPI_TOT_CYC"].filterMap
             (resolveCounter [("PAPI_TOT_CYC", 10)]),
           ["PAPI_TOT_CYC", "NO_SUCH_EVENT", "PAPI_TOT_CYC"].filter fun u =>
             (resolveCounter [("PAPI_TOT_CYC", 10)] u).isNone) ∧
    raisesError (papi_print [("PAPI_TOT_CYC", 10)]
        (["PAPI_TOT_CYC", "NO_SUCH_EVENT", "PAPI_TOT_CYC"].filterMap
          (resolveCounter [("PAPI_TOT_CYC", 10)])) [42, 43]) = false ∧
    papiResultKeys (papi_print [("PAPI_TOT_CYC", 10)]
        (["PAPI_TOT_CYC", "NO_SUCH_EVENT", "PAPI_TOT_CYC"].filterMap
          (resolveCounter [("PAPI_TOT_CYC", 10)])) [42, 43])
      = pyDictKeysDedup
          (["PAPI_TOT_CYC", "NO_SUCH_EVENT", "PAPI_TOT_CYC"].filter fun u =>
            (resolveCounter [("PAPI_TOT_CYC", 10)] u).isSome) ∧
    (pyDictKeysDedup
      (["PAPI_TOT_CYC", "NO_SUCH_EVENT", "PAPI_TOT_CYC"].filter fun u =>
        (resolveCounter [("PAPI_TOT_CYC", 10)] u).isSome)).Nodup :=
  papi_init_partial_resolution [("PAPI_TOT_CYC", 10)]
    ["PAPI_TOT_CYC", "NO_SUCH_EVENT", "PAPI_TOT_CYC"] [42, 43] (by decide)
    ⟨"PAPI_TOT_CYC", by decide⟩ ⟨"NO_SUCH_EVENT", by decide⟩ (by decide)

/-! ## Claim C6: one kernel execution per resolved counter -/

end PolybenchPython
